import Mathlib

/-!
Verification of `chroma_learning.py`: a shallow embedding of the chroma
template generator, the mini-batch shuffler, the dataset preparation
pipeline, the gradient-descent parameter update, and the training loop,
with theorems settling the behavioural claims about each component.

Arrays are modelled as `List Rat` (rows) and `List (List Rat)` (matrices);
integer labels as `Int` with the sentinel `-1` for unmapped labels.
-/

namespace ChromaLearning

/-- Modelled from the spec: `CT.lp_norm(·, 1.0)` from `dltutorial.chroma_tools`
is not under `src/`; the spec says every produced template vector is
normalized to sum to 1 (L1), so each entry is divided by the sum of the
absolute values of the row's entries. -/
def lp_norm (v : List Rat) : List Rat :=
  v.map (fun x => x / (v.map (fun y => |y|)).sum)

/-- One rotated template from the source line
`templates.append(qual_array[(position_idx - root_idx) % 12])`: entry `p` is
the quality vector's entry at index `(p - root_idx) mod 12` (numpy's modulus
of a negative value is non-negative, matching `Int.emod`). -/
def rotate_template (qual_array : List Rat) (root_idx : Int) : List Rat :=
  (List.range 12).map
    (fun (p : Nat) => qual_array.getD (((p : Int) - root_idx) % 12).toNat 0)

/-- Template list built by the loops of `generate_chroma_templates` before
the final normalization: for each quality index below `num_qualities`, the
twelve rotations (roots C, C#, D, ...), then the all-ones no-chord vector.
The quality table (the bit-vectors of `CT.QUALITY_MAP`, not under `src/`)
is passed explicitly. -/
def raw_templates (QUALITY_MAP : List (List Rat)) (num_qualities : Nat) :
    List (List Rat) :=
  ((List.range num_qualities).flatMap (fun (qual_idx : Nat) =>
    (List.range 12).map (fun (root_idx : Nat) =>
      rotate_template (QUALITY_MAP.getD qual_idx []) (root_idx : Int))))
  ++ [List.replicate 12 1]

/-- The function `generate_chroma_templates` of the source: rotate each
quality's bit-vector to all twelve roots, append the all-ones vector, and
L1-normalize every row (`CT.lp_norm(np.array(templates), 1.0)`). -/
def generate_chroma_templates (QUALITY_MAP : List (List Rat))
    (num_qualities : Nat) : List (List Rat) :=
  (raw_templates QUALITY_MAP num_qualities).map lp_norm

theorem bind_blocks_length {α : Type} (f : Nat → List α)
    (hlen : ∀ i, (f i).length = 12) (Q : Nat) :
    ((List.range Q).flatMap f).length = 12 * Q := by
  induction Q with
  | zero => rfl
  | succ n ih =>
    rw [List.range_succ, List.flatMap_append, List.length_append, ih]
    simp [hlen]
    omega

theorem bind_blocks_getD {α : Type} (f : Nat → List α)
    (hlen : ∀ i, (f i).length = 12) (Q q r : Nat) (hq : q < Q) (hr : r < 12)
    (d : α) :
    ((List.range Q).flatMap f).getD (12 * q + r) d = (f q).getD r d := by
  induction Q with
  | zero => omega
  | succ n ih =>
    rw [List.range_succ, List.flatMap_append]
    rcases Nat.lt_or_ge q n with h | h
    · rw [List.getD_append]
      · exact ih h
      · rw [bind_blocks_length f hlen]
        omega
    · have hq' : q = n := by omega
      subst hq'
      rw [List.getD_append_right]
      · rw [bind_blocks_length f hlen]
        simp
      · rw [bind_blocks_length f hlen]
        omega

theorem rotate_template_length (v : List Rat) (root : Int) :
    (rotate_template v root).length = 12 := by
  simp [rotate_template]

theorem rotate_template_getD (v : List Rat) (root : Int) (p : Nat)
    (hp : p < 12) :
    (rotate_template v root).getD p 0
      = v.getD (((p : Int) - root) % 12).toNat 0 := by
  rw [rotate_template, List.getD_eq_getElem _ _ (by simpa using hp)]
  simp

theorem raw_templates_length (QUALITY_MAP : List (List Rat)) (Q : Nat) :
    (raw_templates QUALITY_MAP Q).length = 12 * Q + 1 := by
  rw [raw_templates, List.length_append,
    bind_blocks_length _ (fun i => by simp) Q]
  rfl

theorem raw_templates_getD (QUALITY_MAP : List (List Rat)) (Q q r : Nat)
    (hq : q < Q) (hr : r < 12) :
    (raw_templates QUALITY_MAP Q).getD (12 * q + r) []
      = rotate_template (QUALITY_MAP.getD q []) (r : Int) := by
  rw [raw_templates, List.getD_append]
  · rw [bind_blocks_getD _ (fun i => by simp) Q q r hq hr]
    rw [List.getD_eq_getElem _ _ (by simpa using hr)]
    simp
  · rw [bind_blocks_length _ (fun i => by simp)]
    omega

/-- C6: for every quality `q` and root `r` in `0..11`, the pre-normalization
template generated at index `12*q + r` has, at each pitch-class position `p`,
the quality's base membership vector's value at position `(p - r) mod 12`;
and the rotation is periodic with period 12, so root `r` and root `r + 12`
give the same template. -/
theorem C6_rotation_correct (QUALITY_MAP : List (List Rat)) (Q q r p : Nat)
    (hq : q < Q) (hr : r < 12) (hp : p < 12) :
    ((raw_templates QUALITY_MAP Q).getD (12 * q + r) []).getD p 0
      = (QUALITY_MAP.getD q []).getD (((p : Int) - (r : Int)) % 12).toNat 0
    ∧ ∀ (v : List Rat) (root : Int),
        rotate_template v (root + 12) = rotate_template v root := by
  constructor
  · rw [raw_templates_getD QUALITY_MAP Q q r hq hr,
      rotate_template_getD _ _ _ hp]
  · intro v root
    unfold rotate_template
    apply List.map_congr_left
    intro a _
    have h12 : ((a : Int) - (root + 12)) % 12 = ((a : Int) - root) % 12 := by
      omega
    rw [h12]

/-- Witness for C6 at concrete inputs. -/
theorem C6_rotation_correct_witness :
    (0 : Nat) < 1 ∧ (1 : Nat) < 12 ∧ (3 : Nat) < 12 ∧
    (((raw_templates [[1, 0, 0, 0, 1, 0, 0, 1, 0, 0, 0, 0]] 1).getD
        (12 * 0 + 1) []).getD 3 0
      = (([[1, 0, 0, 0, 1, 0, 0, 1, 0, 0, 0, 0]] :
          List (List Rat)).getD 0 []).getD
          ((((3 : Nat) : Int) - ((1 : Nat) : Int)) % 12).toNat 0
    ∧ ∀ (v : List Rat) (root : Int),
        rotate_template v (root + 12) = rotate_template v root) :=
  ⟨by decide, by decide, by decide,
    C6_rotation_correct [[1, 0, 0, 0, 1, 0, 0, 1, 0, 0, 0, 0]] 1 0 1 3
      (by decide) (by decide) (by decide)⟩

theorem generate_chroma_templates_length (QUALITY_MAP : List (List Rat))
    (Q : Nat) :
    (generate_chroma_templates QUALITY_MAP Q).length = 12 * Q + 1 := by
  simp [generate_chroma_templates, raw_templates_length]

theorem getD_map_lp_norm (l : List (List Rat)) (i : Nat) (hi : i < l.length) :
    (l.map lp_norm).getD i [] = lp_norm (l.getD i []) := by
  rw [List.getD_eq_getElem _ _ (by simpa using hi), List.getElem_map,
    List.getD_eq_getElem _ _ hi]

/-- A concrete 13-entry quality table, used only to instantiate theorems with
hypotheses at a witness input; each entry is a binary 12-vector with at least
one set bit, as the quality bit-vectors are. -/
def demo_QUALITY_MAP : List (List Rat) :=
  [[1, 0, 0, 0, 1, 0, 0, 1, 0, 0, 0, 0],
   [1, 0, 0, 1, 0, 0, 0, 1, 0, 0, 0, 0],
   [1, 0, 0, 0, 1, 0, 0, 1, 0, 0, 0, 1],
   [1, 0, 0, 1, 0, 0, 0, 1, 0, 0, 1, 0],
   [1, 0, 0, 0, 1, 0, 0, 1, 0, 0, 1, 0],
   [1, 0, 0, 0, 1, 0, 0, 1, 0, 1, 0, 0],
   [1, 0, 0, 1, 0, 0, 0, 1, 0, 1, 0, 0],
   [1, 0, 0, 1, 0, 0, 1, 0, 0, 0, 0, 0],
   [1, 0, 0, 0, 1, 0, 0, 0, 1, 0, 0, 0],
   [1, 0, 0, 0, 0, 1, 0, 1, 0, 0, 0, 0],
   [1, 0, 1, 0, 0, 0, 0, 1, 0, 0, 0, 0],
   [1, 0, 0, 1, 0, 0, 1, 0, 0, 0, 1, 0],
   [1, 0, 0, 1, 0, 0, 1, 0, 0, 1, 0, 0]]

/-- C7: for every quality count `Q` not exceeding the 13-quality vocabulary,
`generate_chroma_templates` produces exactly `12*Q + 1` templates, in
quality-major order — the template at index `12*q + r` is the normalized
rotation of quality `q` to root `r` — with the single no-chord template, the
normalized uniform all-ones vector (`1/12` in every position), appended last
at index `12*Q`. -/
theorem C7_template_count_and_order (QUALITY_MAP : List (List Rat)) (Q : Nat)
    (hvocab : QUALITY_MAP.length = 13) (hQ : Q ≤ 13) :
    (generate_chroma_templates QUALITY_MAP Q).length = 12 * Q + 1
    ∧ (∀ q r : Nat, q < Q → r < 12 →
        (generate_chroma_templates QUALITY_MAP Q).getD (12 * q + r) []
          = lp_norm (rotate_template (QUALITY_MAP.getD q []) (r : Int)))
    ∧ (generate_chroma_templates QUALITY_MAP Q).getD (12 * Q) []
        = List.replicate 12 (1 / 12 : Rat) := by
  refine ⟨generate_chroma_templates_length QUALITY_MAP Q, ?_, ?_⟩
  · intro q r hq hr
    rw [generate_chroma_templates,
      getD_map_lp_norm _ _ (by rw [raw_templates_length]; omega),
      raw_templates_getD QUALITY_MAP Q q r hq hr]
  · rw [generate_chroma_templates,
      getD_map_lp_norm _ _ (by rw [raw_templates_length]; omega)]
    have hlast : (raw_templates QUALITY_MAP Q).getD (12 * Q) []
        = List.replicate 12 1 := by
      rw [raw_templates,
        List.getD_append_right _ _ _ _
          (by rw [bind_blocks_length _ (fun i => by simp)]),
        bind_blocks_length _ (fun i => by simp)]
      simp
    rw [hlast, lp_norm]
    norm_num [List.map_replicate, List.sum_replicate]

/-- Witness for C7 at a concrete quality table and quality count. -/
theorem C7_template_count_and_order_witness :
    demo_QUALITY_MAP.length = 13 ∧ (1 : Nat) ≤ 13 ∧
    ((generate_chroma_templates demo_QUALITY_MAP 1).length = 12 * 1 + 1
     ∧ (∀ q r : Nat, q < 1 → r < 12 →
         (generate_chroma_templates demo_QUALITY_MAP 1).getD (12 * q + r) []
           = lp_norm (rotate_template (demo_QUALITY_MAP.getD q []) (r : Int)))
     ∧ (generate_chroma_templates demo_QUALITY_MAP 1).getD (12 * 1) []
         = List.replicate 12 (1 / 12 : Rat)) :=
  ⟨by decide, by decide,
    C7_template_count_and_order demo_QUALITY_MAP 1 (by decide) (by decide)⟩

theorem sum_map_div (l : List Rat) (S : Rat) :
    (l.map (fun x => x / S)).sum = l.sum / S := by
  induction l with
  | nil => simp
  | cons a t ih => simp [ih, add_div]

theorem lp_norm_of_binary (u : List Rat) (hbin : ∀ x ∈ u, x = 0 ∨ x = 1)
    (h1 : 1 ∈ u) : (∀ x ∈ lp_norm u, 0 ≤ x) ∧ (lp_norm u).sum = 1 := by
  have hnn : ∀ x ∈ u, 0 ≤ x := by
    intro x hx
    rcases hbin x hx with h | h <;> simp [h]
  have habs : (u.map fun y => |y|) = u := by
    calc (u.map fun y => |y|)
        = u.map id := List.map_congr_left (fun x hx => abs_of_nonneg (hnn x hx))
      _ = u := List.map_id u
  have hS : (1 : Rat) ≤ u.sum := List.single_le_sum hnn 1 h1
  have hSpos : (0 : Rat) < u.sum := lt_of_lt_of_le one_pos hS
  constructor
  · intro x hx
    rw [lp_norm, habs] at hx
    obtain ⟨y, hy, rfl⟩ := List.mem_map.mp hx
    exact div_nonneg (hnn y hy) (le_of_lt hSpos)
  · rw [lp_norm, habs, sum_map_div, div_self (ne_of_gt hSpos)]

theorem rotate_template_binary (v : List Rat) (root : Int)
    (hbin : ∀ x ∈ v, x = 0 ∨ x = 1) :
    ∀ x ∈ rotate_template v root, x = 0 ∨ x = 1 := by
  intro x hx
  rw [rotate_template] at hx
  obtain ⟨p, _, rfl⟩ := List.mem_map.mp hx
  rcases Nat.lt_or_ge (((p : Int) - root) % 12).toNat v.length with h | h
  · rw [List.getD_eq_getElem _ _ h]
    exact hbin _ (List.getElem_mem h)
  · rw [List.getD_eq_default _ _ h]
    exact Or.inl rfl

theorem one_mem_rotate_template (v : List Rat) (r : Nat) (hr : r < 12)
    (hlen : v.length = 12) (h1 : 1 ∈ v) :
    1 ∈ rotate_template v (r : Int) := by
  obtain ⟨j, hjlt, hjeq⟩ := List.mem_iff_getElem.mp h1
  have hj12 : j < 12 := by rw [hlen] at hjlt; exact hjlt
  have hp : (j + r) % 12 < 12 := Nat.mod_lt _ (by omega)
  have hidx : (((((j + r) % 12 : Nat) : Int) - (r : Int)) % 12).toNat = j := by
    omega
  refine List.mem_iff_getElem.mpr
    ⟨(j + r) % 12, by rw [rotate_template_length]; exact hp, ?_⟩
  have hd : (rotate_template v (r : Int)).getD ((j + r) % 12) 0 = 1 := by
    rw [rotate_template_getD _ _ _ hp, hidx,
      List.getD_eq_getElem _ _ hjlt, hjeq]
  rw [List.getD_eq_getElem _ _ (by rw [rotate_template_length]; exact hp)]
    at hd
  exact hd

/-- C8: every template returned by `generate_chroma_templates` — one per
quality/root pair plus the no-chord template — is element-wise non-negative
and its elements sum to 1 (L1-normalized), whenever the quality table holds
binary 12-vectors each with at least one set bit and the quality count does
not exceed the table. -/
theorem C8_templates_normalized (QUALITY_MAP : List (List Rat)) (Q : Nat)
    (hQ : Q ≤ QUALITY_MAP.length)
    (hbin : ∀ v ∈ QUALITY_MAP, ∀ x ∈ v, x = 0 ∨ x = 1)
    (hlen : ∀ v ∈ QUALITY_MAP, v.length = 12)
    (hone : ∀ v ∈ QUALITY_MAP, 1 ∈ v) :
    ∀ t ∈ generate_chroma_templates QUALITY_MAP Q,
      (∀ x ∈ t, 0 ≤ x) ∧ t.sum = 1 := by
  intro t ht
  rw [generate_chroma_templates] at ht
  obtain ⟨u, hu, rfl⟩ := List.mem_map.mp ht
  rw [raw_templates] at hu
  rcases List.mem_append.mp hu with hu | hu
  · obtain ⟨qi, hqi, hu⟩ := List.mem_flatMap.mp hu
    obtain ⟨ri, hri, rfl⟩ := List.mem_map.mp hu
    have hqlt : qi < QUALITY_MAP.length :=
      lt_of_lt_of_le (List.mem_range.mp hqi) hQ
    have hqmem : QUALITY_MAP.getD qi [] ∈ QUALITY_MAP := by
      rw [List.getD_eq_getElem _ _ hqlt]
      exact List.getElem_mem hqlt
    exact lp_norm_of_binary _
      (rotate_template_binary _ _ (hbin _ hqmem))
      (one_mem_rotate_template _ ri (List.mem_range.mp hri)
        (hlen _ hqmem) (hone _ hqmem))
  · rw [List.mem_singleton] at hu
    subst hu
    refine lp_norm_of_binary _ ?_ ?_
    · intro x hx
      exact Or.inr (List.eq_of_mem_replicate hx)
    · simp [List.mem_replicate]

/-- Witness for C8 at a concrete quality table and quality count. -/
theorem C8_templates_normalized_witness :
    (1 : Nat) ≤ demo_QUALITY_MAP.length ∧
    ∀ t ∈ generate_chroma_templates demo_QUALITY_MAP 1,
      (∀ x ∈ t, 0 ≤ x) ∧ t.sum = 1 :=
  ⟨by decide,
    C8_templates_normalized demo_QUALITY_MAP 1 (by decide) (by decide)
      (by decide) (by decide)⟩

/-- Internal state of the `data_shuffler` generator: the index permutation
`sample_idx`, the read cursor `read_ptr`, and a count of reshuffles done so
far (`epoch`), used to take successive permutations from the shuffle stream
that models `np.random.shuffle`. -/
structure ShufflerState where
  sample_idx : List Nat
  read_ptr : Nat
  epoch : Nat
deriving DecidableEq

/-- One index draw of the inner loop of `data_shuffler`: when the read
pointer has reached the dataset size, install the next permutation from the
shuffle stream `perms` and reset the pointer, then emit the index under the
pointer and advance the pointer. -/
def shuffler_draw (num_samples : Nat) (perms : Nat → List Nat)
    (s : ShufflerState) : Nat × ShufflerState :=
  if num_samples ≤ s.read_ptr then
    ((perms s.epoch).getD 0 0, ⟨perms s.epoch, 1, s.epoch + 1⟩)
  else
    (s.sample_idx.getD s.read_ptr 0, ⟨s.sample_idx, s.read_ptr + 1, s.epoch⟩)

/-- A run of `k` consecutive single-index draws. -/
def shuffler_run (num_samples : Nat) (perms : Nat → List Nat) :
    Nat → ShufflerState → List Nat × ShufflerState
  | 0, s => ([], s)
  | k + 1, s =>
    let d := shuffler_draw num_samples perms s
    let rest := shuffler_run num_samples perms k d.2
    (d.1 :: rest.1, rest.2)

/-- One `yield` of `data_shuffler`: draw `batch_size` indices one at a time
(reshuffling whenever the cursor reaches the dataset size, even mid-batch)
and gather the corresponding data rows and labels. -/
def data_shuffler_batch {X Y : Type} (data : List X) (labels : List Y)
    (x0 : X) (y0 : Y) (batch_size : Nat) (perms : Nat → List Nat)
    (s : ShufflerState) : (List X × List Y) × ShufflerState :=
  let r := shuffler_run data.length perms batch_size s
  ((r.1.map (fun i => data.getD i x0), r.1.map (fun i => labels.getD i y0)),
    r.2)

theorem shuffler_run_length (num_samples : Nat) (perms : Nat → List Nat)
    (k : Nat) (s : ShufflerState) :
    (shuffler_run num_samples perms k s).1.length = k := by
  induction k generalizing s with
  | zero => rfl
  | succ n ih => simp [shuffler_run, ih]

theorem shuffler_run_no_reshuffle (num_samples : Nat)
    (perms : Nat → List Nat) (p : List Nat) (hp : p.length = num_samples)
    (k : Nat) :
    ∀ (j e : Nat), j + k ≤ num_samples →
      (shuffler_run num_samples perms k ⟨p, j, e⟩).1 = (p.drop j).take k := by
  induction k with
  | zero => intro j e _; simp [shuffler_run]
  | succ n ih =>
    intro j e hjk
    have hj : j < num_samples := by omega
    have hdraw : shuffler_draw num_samples perms ⟨p, j, e⟩
        = (p.getD j 0, ⟨p, j + 1, e⟩) := by
      rw [shuffler_draw, if_neg (by simp; omega)]
    have hjp : j < p.length := by omega
    rw [shuffler_run]
    simp only [hdraw]
    rw [ih (j + 1) e (by omega), List.drop_eq_getElem_cons hjp,
      List.take_succ_cons, List.getD_eq_getElem _ _ hjp]

theorem shuffler_epoch_outputs (num_samples : Nat) (perms : Nat → List Nat)
    (s : ShufflerState) (hN : 0 < num_samples)
    (hlen : (perms s.epoch).length = num_samples)
    (hptr : num_samples ≤ s.read_ptr) :
    (shuffler_run num_samples perms num_samples s).1 = perms s.epoch := by
  obtain ⟨n, rfl⟩ := Nat.exists_eq_succ_of_ne_zero (Nat.pos_iff_ne_zero.mp hN)
  have hdraw : shuffler_draw (n + 1) perms s
      = ((perms s.epoch).getD 0 0, ⟨perms s.epoch, 1, s.epoch + 1⟩) := by
    rw [shuffler_draw, if_pos hptr]
  rw [shuffler_run]
  simp only [hdraw]
  rw [shuffler_run_no_reshuffle (n + 1) perms (perms s.epoch) hlen n 1
    (s.epoch + 1) (by omega)]
  cases hp : perms s.epoch with
  | nil => rw [hp] at hlen; simp at hlen
  | cons a t =>
    have ht : t.length = n := by
      rw [hp] at hlen
      simpa using hlen
    simp [List.take_of_length_le ht.le]

/-- C3: every pull from the `data_shuffler` generator returns exactly
`batch_size` (feature, target) pairs; the `num_samples` consecutive
single-index draws starting with a reshuffle emit exactly the fresh
permutation, so every dataset index appears exactly once before any repeats;
and a draw reshuffles (advances the epoch) exactly when the read cursor has
reached the dataset size, even mid-batch. -/
theorem C3_shuffler_batches {X Y : Type} (data : List X) (labels : List Y)
    (x0 : X) (y0 : Y) (batch_size : Nat) (perms : Nat → List Nat)
    (s : ShufflerState) (hN : 0 < data.length)
    (hperm : (perms s.epoch).Perm (List.range data.length))
    (hptr : data.length ≤ s.read_ptr) :
    ((data_shuffler_batch data labels x0 y0 batch_size perms s).1.1.length
        = batch_size
      ∧ (data_shuffler_batch data labels x0 y0 batch_size perms s).1.2.length
        = batch_size)
    ∧ (shuffler_run data.length perms data.length s).1 = perms s.epoch
    ∧ (∀ i, i < data.length →
        (shuffler_run data.length perms data.length s).1.count i = 1)
    ∧ (∀ t : ShufflerState,
        (shuffler_draw data.length perms t).2.epoch
          = if data.length ≤ t.read_ptr then t.epoch + 1 else t.epoch) := by
  have hlen : (perms s.epoch).length = data.length := by
    rw [hperm.length_eq, List.length_range]
  refine ⟨⟨?_, ?_⟩, ?_, ?_, ?_⟩
  · simp [data_shuffler_batch, shuffler_run_length]
  · simp [data_shuffler_batch, shuffler_run_length]
  · exact shuffler_epoch_outputs _ _ _ hN hlen hptr
  · intro i hi
    rw [shuffler_epoch_outputs _ _ _ hN hlen hptr,
      List.perm_iff_count.mp hperm]
    exact List.count_eq_one_of_mem (List.nodup_range _) (List.mem_range.mpr hi)
  · intro t
    by_cases h : data.length ≤ t.read_ptr <;> simp [shuffler_draw, h]

/-- Witness for C3 at a concrete two-row dataset, a pull of three pairs, and
a state about to reshuffle. -/
theorem C3_shuffler_batches_witness :
    ((0 : Nat) < 2
      ∧ ([1, 0] : List Nat).Perm (List.range 2)
      ∧ (2 : Nat) ≤ 2)
    ∧ (((data_shuffler_batch [10, 20] [5, 6] 0 0 3 (fun _ => [1, 0])
          ⟨[0, 1], 2, 0⟩).1.1.length = 3
        ∧ (data_shuffler_batch [10, 20] [5, 6] 0 0 3 (fun _ => [1, 0])
          ⟨[0, 1], 2, 0⟩).1.2.length = 3)
      ∧ (shuffler_run 2 (fun _ => [1, 0]) 2 ⟨[0, 1], 2, 0⟩).1 = [1, 0]
      ∧ (∀ i, i < 2 →
          (shuffler_run 2 (fun _ => [1, 0]) 2 ⟨[0, 1], 2, 0⟩).1.count i = 1)
      ∧ (∀ t : ShufflerState,
          (shuffler_draw 2 (fun _ => [1, 0]) t).2.epoch
            = if 2 ≤ t.read_ptr then t.epoch + 1 else t.epoch)) :=
  ⟨⟨by decide, by decide, by decide⟩,
    C3_shuffler_batches [10, 20] [5, 6] 0 0 3 (fun _ => [1, 0])
      ⟨[0, 1], 2, 0⟩ (by decide) (by decide) (by decide)⟩

/-- Label translation of the source line
`y_true = np.array([label_map.get(l, -1) for l in labels])`: a label absent
from the map takes the sentinel value `-1`. -/
def y_true_of {L : Type} (label_map : L → Option Int) (labels : List L) :
    List Int :=
  labels.map (fun l => (label_map l).getD (-1))

/-- Row filtering of the source lines `valid_idx = y_true > 0` and
`data, y_true = data[valid_idx], y_true[valid_idx]`: keep exactly the rows
whose mapped label is strictly positive. -/
def filter_valid {D : Type} (data : List D) (y_true : List Int) :
    List D × List Int :=
  let rows := (data.zip y_true).filter (fun r => decide (0 < r.2))
  (rows.map Prod.fst, rows.map Prod.snd)

/-- The reduction `y_true.max()` of numpy: on an empty array it raises a
`ValueError`, modelled as `Except.error`; otherwise it returns the maximum
element. -/
def np_max : List Int → Except String Int
  | [] => Except.error
      "zero-size array to reduction operation maximum which has no identity"
  | x :: xs => Except.ok (xs.foldl max x)

/-- Quality-count inference of the source line
`num_qualities = int(y_true.max() / 12)`. -/
def num_qualities_of (m : Int) : Nat := (m / 12).toNat

/-- Statistics step of `prepare_training_data`
(`stats = dict with mu = data.mean(axis=0) and sigma = data.std(axis=0)`):
numpy's `mean` and `std` reductions do not raise on an empty axis — they
emit NaN values with a warning — so this step is total and returns values
for every input; it is typed as an `Except` that always succeeds, to make
the contrast with the raising `np.max` reduction explicit. `dim` is the
per-row feature dimensionality; division by the row count of an empty input
yields `0` here (`Rat` division by zero), standing in for numpy's NaN. The
standard deviation is the square root of the variance, irrational in
general, so the model records the variance (the elementwise square of
`sigma`), computed by the same reduction with the same definedness. -/
def compute_stats (data : List (List Rat)) (dim : Nat) :
    Except String (List Rat × List Rat) :=
  let mu := (List.range dim).map
    (fun (j : Nat) =>
      (data.map (fun row => row.getD j 0)).sum / (data.length : Rat))
  let var := (List.range dim).map
    (fun (j : Nat) =>
      (data.map (fun row => (row.getD j 0 - mu.getD j 0) ^ 2)).sum
        / (data.length : Rat))
  Except.ok (mu, var)

/-- Result record of `prepare_training_data`: the dataset the shuffler is
bound to (pooled rows and per-row template targets), the batch size, and
the standardization statistics. -/
structure PreparedData where
  rows : List (List Rat)
  targets : List (List Rat)
  batch_size : Nat
  mu : List Rat
  sigma_sq : List Rat

/-- The function `prepare_training_data` of the source: map the labels
through the label map with sentinel `-1`, keep rows with strictly positive
mapped label, pool the retained features (`CT.cqt_pool` is not under
`src/`; modelled as an abstract per-row transform `pool`), compute the
standardization statistics, infer the quality count from the maximum
retained label, generate the templates, and bind each retained row to its
template `templates[y]`. The out-of-range lookup that `templates[y_true]`
would raise on is modelled with the default `[]`. -/
def prepare_training_data {L : Type} (pool : List Rat → List Rat) (dim : Nat)
    (QUALITY_MAP : List (List Rat)) (label_map : L → Option Int)
    (data : List (List Rat)) (labels : List L) (batch_size : Nat) :
    Except String PreparedData :=
  let y_true := y_true_of label_map labels
  let fd := filter_valid data y_true
  let pooled := fd.1.map pool
  match compute_stats pooled dim with
  | Except.error e => Except.error e
  | Except.ok stats =>
    match np_max fd.2 with
    | Except.error e => Except.error e
    | Except.ok m =>
      let templates :=
        generate_chroma_templates QUALITY_MAP (num_qualities_of m)
      Except.ok ⟨pooled, fd.2.map (fun y => templates.getD y.toNat []),
        batch_size, stats.1, stats.2⟩

/-- C1 (code bug): the source comment says rows whose labels do not exist in
the label map (mapped to the negative sentinel) are dropped, but the filter
`y_true > 0` also drops a row whose mapped label is the valid non-negative
value `0`: on a one-row dataset whose label is mapped to `0`, every label is
present in the map with a non-negative value, yet the filtered dataset is
empty, so the output row count falls strictly below the input row count. -/
theorem C1_filter_drops_label_zero :
    y_true_of (fun l : Nat => if l = 0 then some 0 else none) [0] = [0]
    ∧ (0 : Int) ≤ 0
    ∧ (filter_valid [([42] : List Rat)]
        (y_true_of (fun l : Nat => if l = 0 then some 0 else none)
          [0])).1.length = 0
    ∧ [([42] : List Rat)].length = 1 := by
  exact ⟨rfl, le_refl 0, rfl, rfl⟩

theorem le_foldl_max (xs : List Int) (x : Int) :
    x ≤ xs.foldl max x ∧ ∀ y ∈ xs, y ≤ xs.foldl max x := by
  induction xs generalizing x with
  | nil => exact ⟨le_refl x, by simp⟩
  | cons a t ih =>
    refine ⟨le_trans (le_max_left x a) (ih (max x a)).1, ?_⟩
    intro y hy
    rcases List.mem_cons.mp hy with rfl | hy
    · exact le_trans (le_max_right x y) (ih (max x y)).1
    · exact (ih (max x a)).2 y hy

theorem np_max_ge (l : List Int) (m : Int) (h : np_max l = Except.ok m) :
    ∀ y ∈ l, y ≤ m := by
  cases l with
  | nil => simp [np_max] at h
  | cons x xs =>
    simp only [np_max, Except.ok.injEq] at h
    subst h
    intro y hy
    rcases List.mem_cons.mp hy with rfl | hy
    · exact (le_foldl_max xs y).1
    · exact (le_foldl_max xs x).2 y hy

theorem filter_valid_pos {D : Type} (data : List D) (y_true : List Int) :
    ∀ y ∈ (filter_valid data y_true).2, 0 < y := by
  intro y hy
  obtain ⟨r, hr, rfl⟩ := List.mem_map.mp hy
  have := List.of_mem_filter hr
  simpa using this

/-- Counterexample to C2: with one retained row whose mapped label is `1`,
the maximum retained label is `1`, the inferred quality count is
`1 / 12 = 0`, and the generated template list has `12*0 + 1 = 1` entry, so
the surviving label `1` is not strictly within `[0, num_templates)` and
`templates[1]` is out of range. -/
theorem C2_counterexample :
    (filter_valid [([5] : List Rat)]
        (y_true_of (fun _ : Unit => some 1) [()])).2 = [1]
    ∧ np_max [(1 : Int)] = Except.ok 1
    ∧ (generate_chroma_templates demo_QUALITY_MAP
        (num_qualities_of 1)).length = 1
    ∧ ¬((1 : Int).toNat < 1) := by
  refine ⟨rfl, rfl, ?_, by decide⟩
  rw [generate_chroma_templates_length]
  rfl

/-- C2 (amended): provided the maximum retained label is a multiple of 12 —
as it is for the intended dataset, whose maximum label is the no-chord index
`12 * 13 = 156` — every row surviving filtering has a mapped label strictly
within `[0, num_templates)`, where `num_templates = 12 * (max_label / 12)
+ 1` is the size of the template list generated for the inferred quality
count, so binding each retained row to `templates[label]` is in range. -/
theorem C2_label_in_range {L D : Type} (QUALITY_MAP : List (List Rat))
    (label_map : L → Option Int) (labels : List L) (data : List D) (m : Int)
    (hmax : np_max (filter_valid data (y_true_of label_map labels)).2
      = Except.ok m)
    (hdvd : (12 : Int) ∣ m) :
    ∀ y ∈ (filter_valid data (y_true_of label_map labels)).2,
      0 ≤ y ∧ y.toNat <
        (generate_chroma_templates QUALITY_MAP
          (num_qualities_of m)).length := by
  intro y hy
  have hpos : 0 < y := filter_valid_pos data (y_true_of label_map labels) y hy
  have hle : y ≤ m :=
    np_max_ge (filter_valid data (y_true_of label_map labels)).2 m hmax y hy
  rw [generate_chroma_templates_length]
  simp only [num_qualities_of]
  omega

/-- Witness for C2 at a one-row dataset whose label maps to 12. -/
theorem C2_label_in_range_witness :
    (np_max (filter_valid [()]
        (y_true_of (fun _ : Unit => some 12) [()])).2 = Except.ok 12
      ∧ (12 : Int) ∣ 12)
    ∧ ∀ y ∈ (filter_valid [()]
        (y_true_of (fun _ : Unit => some 12) [()])).2,
        0 ≤ y ∧ y.toNat <
          (generate_chroma_templates demo_QUALITY_MAP
            (num_qualities_of 12)).length :=
  ⟨⟨rfl, by decide⟩,
    C2_label_in_range demo_QUALITY_MAP (fun _ : Unit => some 12) [()] [()]
      12 rfl (by decide)⟩

/-- Counterexample to C9: on a one-row dataset whose label is unmapped, no
rows survive filtering; the statistics step still computes and returns
values over the empty filtered set (numpy's mean and std emit NaN without
raising), and the operation then aborts — with the empty-reduction error of
`y_true.max()`, before templates are generated — so statistics are computed
from an empty filtered set, contrary to the claim. -/
theorem C9_counterexample :
    (filter_valid [([3] : List Rat)]
        (y_true_of (fun _ : Unit => none) [()])).2 = []
    ∧ compute_stats
        ((filter_valid [([3] : List Rat)]
          (y_true_of (fun _ : Unit => none) [()])).1.map id) 1
        = Except.ok ([0], [0])
    ∧ prepare_training_data id 1 demo_QUALITY_MAP (fun _ : Unit => none)
        [[3]] [()] 50
      = Except.error
        "zero-size array to reduction operation maximum which has no identity" := by
  refine ⟨rfl, ?_, rfl⟩
  show compute_stats [] 1 = Except.ok ([0], [0])
  rw [compute_stats]
  norm_num

/-- C9 (amended): if no rows survive label filtering,
`prepare_training_data` aborts with the empty-reduction error raised by
`y_true.max()`, before templates are generated and before training starts;
the statistics step, however, has already run over the empty filtered set
(returning values, as numpy's mean and std do) rather than being skipped. -/
theorem C9_empty_filter_aborts {L : Type} (pool : List Rat → List Rat)
    (dim : Nat) (QUALITY_MAP : List (List Rat)) (label_map : L → Option Int)
    (data : List (List Rat)) (labels : List L) (batch_size : Nat)
    (hempty : (filter_valid data (y_true_of label_map labels)).2 = []) :
    prepare_training_data pool dim QUALITY_MAP label_map data labels
        batch_size
      = Except.error
        "zero-size array to reduction operation maximum which has no identity"
    ∧ ∃ stats, compute_stats
        ((filter_valid data (y_true_of label_map labels)).1.map pool) dim
        = Except.ok stats := by
  refine ⟨?_, ⟨_, rfl⟩⟩
  simp [prepare_training_data, compute_stats, hempty, np_max]

/-- Witness for C9 at a one-row dataset with an unmapped label. -/
theorem C9_empty_filter_aborts_witness :
    ((filter_valid [([3] : List Rat)]
        (y_true_of (fun _ : Unit => none) [()])).2 = [])
    ∧ (prepare_training_data id 1 demo_QUALITY_MAP (fun _ : Unit => none)
        [[3]] [()] 50
      = Except.error
        "zero-size array to reduction operation maximum which has no identity"
    ∧ ∃ stats, compute_stats
        ((filter_valid [([3] : List Rat)]
          (y_true_of (fun _ : Unit => none) [()])).1.map id) 1
        = Except.ok stats) :=
  ⟨rfl,
    C9_empty_filter_aborts id 1 demo_QUALITY_MAP (fun _ : Unit => none)
      [[3]] [()] 50 rfl⟩

/-- Names of the network's shared variables in `build_chroma_transform`:
the trainable `weights0` and `bias0`, and the standardization constants
`mu` and `sigma`. -/
inductive ParamName where
  | weights0
  | bias0
  | mu
  | sigma
deriving DecidableEq

/-- Assignment of a numeric array (flattened) to each shared variable. -/
def Params : Type := ParamName → List Rat

/-- One gradient-descent update from the source line
`updates[param] = param - eta * gparam`, elementwise over the array. -/
def sgd_update (w : List Rat) (eta : Rat) (g : List Rat) : List Rat :=
  List.zipWith (fun x gx => x - eta * gx) w g

/-- The `updates` ordered dictionary built by the source loop
`for param in [weights0, bias0]`: one entry per trainable parameter, keyed
by the parameter, holding its updated value; `mu` and `sigma` are not in
the list, so they get no entry. The gradient of the batch loss with respect
to each parameter is supplied by the external differentiation collaborator
(`T.grad`) and is abstract here. -/
def build_updates (params : Params) (eta : Rat)
    (grad : ParamName → List Rat) : List (ParamName × List Rat) :=
  [ParamName.weights0, ParamName.bias0].map
    (fun p => (p, sgd_update (params p) eta (grad p)))

/-- Lookup of a parameter in the update dictionary. -/
def find_update : List (ParamName × List Rat) → ParamName → Option (List Rat)
  | [], _ => none
  | (m, v) :: rest, n => if m = n then some v else find_update rest n

/-- Application of a compiled function's update dictionary to the shared
variables: a parameter with an entry takes its new value; every other
shared variable keeps its current value. -/
def apply_updates (params : Params) (upd : List (ParamName × List Rat)) :
    Params :=
  fun n => (find_update upd n).getD (params n)

/-- Parameter effect of one call of the compiled `objective_fx`: apply the
update dictionary built from the current parameter values, the learning
rate `eta`, and the batch gradient. -/
def objective_fx_params (eta : Rat) (grad : ParamName → List Rat)
    (params : Params) : Params :=
  apply_updates params (build_updates params eta grad)

/-- The assignment performed by `main` before training:
`params[name].set_value(stats[name])` for `mu` and `sigma`. -/
def set_stats (params : Params) (mu_val sigma_val : List Rat) : Params :=
  fun n =>
    match n with
    | ParamName.mu => mu_val
    | ParamName.sigma => sigma_val
    | other => params other

/-- Parameter values in effect at the start of iteration `n`, beginning at
iteration index `i` with values `p`: each iteration calls `objective_fx`
once, whose batch gradient an iteration-indexed external collaborator
`gradSeq` supplies from the current parameter values. -/
def params_from (eta : Rat) (gradSeq : Nat → Params → ParamName → List Rat) :
    Nat → Nat → Params → Params
  | _, 0, p => p
  | i, n + 1, p =>
    params_from eta gradSeq (i + 1) n
      (objective_fx_params eta (gradSeq i p) p)

/-- C5: one invocation of the step function updates each trainable parameter
to its old value minus `eta` times the gradient of the batch loss with
respect to it, elementwise, and leaves `mu` and `sigma` unchanged; and after
`main` sets `mu` and `sigma` once from the preparer's statistics, any number
of update steps leaves them equal to those statistics. -/
theorem C5_update_rule_and_frame (p : Params) (eta : Rat)
    (grad : ParamName → List Rat) (mu_val sigma_val : List Rat)
    (gradSeq : Nat → Params → ParamName → List Rat) (i k : Nat) :
    (objective_fx_params eta grad p ParamName.weights0
        = List.zipWith (fun x gx => x - eta * gx)
            (p ParamName.weights0) (grad ParamName.weights0)
      ∧ objective_fx_params eta grad p ParamName.bias0
        = List.zipWith (fun x gx => x - eta * gx)
            (p ParamName.bias0) (grad ParamName.bias0))
    ∧ (objective_fx_params eta grad p ParamName.mu = p ParamName.mu
      ∧ objective_fx_params eta grad p ParamName.sigma = p ParamName.sigma)
    ∧ (params_from eta gradSeq i k (set_stats p mu_val sigma_val)
          ParamName.mu = mu_val
      ∧ params_from eta gradSeq i k (set_stats p mu_val sigma_val)
          ParamName.sigma = sigma_val) := by
  refine ⟨⟨rfl, rfl⟩, ⟨rfl, rfl⟩, ?_⟩
  have hfix : ∀ (j n : Nat) (q : Params),
      q ParamName.mu = mu_val → q ParamName.sigma = sigma_val →
      params_from eta gradSeq j n q ParamName.mu = mu_val
        ∧ params_from eta gradSeq j n q ParamName.sigma = sigma_val := by
    intro j n
    induction n generalizing j with
    | zero => intro q hm hs; exact ⟨hm, hs⟩
    | succ n ih =>
      intro q hm hs
      exact ih (j + 1) (objective_fx_params eta (gradSeq j q) q)
        (by rw [show objective_fx_params eta (gradSeq j q) q ParamName.mu
              = q ParamName.mu from rfl]; exact hm)
        (by rw [show objective_fx_params eta (gradSeq j q) q ParamName.sigma
              = q ParamName.sigma from rfl]; exact hs)
  exact hfix i k (set_stats p mu_val sigma_val) rfl rfl

/-- The loop of `train_network` over an abstract per-iteration loss: with
`fuel` iterations remaining and the counter at `n_iter`, record one loss per
completed iteration; the keyboard interrupt — modelled, as the spec's
concurrency section states, as arriving at an iteration boundary, namely at
the start of iteration `interrupt_at` — stops the loop, which then returns
only the prefix accumulated so far (`train_loss[:n_iter]`). -/
def train_steps (losses : Nat → Rat) (interrupt_at : Option Nat) :
    Nat → Nat → List Rat
  | _, 0 => []
  | n_iter, fuel + 1 =>
    if interrupt_at = some n_iter then []
    else losses n_iter :: train_steps losses interrupt_at (n_iter + 1) fuel

/-- The function `train_network` of the source, over an abstract
per-iteration loss: run up to `num_iterations` iterations starting from
counter 0, returning the recorded loss history. -/
def train_network (losses : Nat → Rat) (interrupt_at : Option Nat)
    (num_iterations : Nat) : List Rat :=
  train_steps losses interrupt_at 0 num_iterations

theorem train_steps_none (losses : Nat → Rat) :
    ∀ (fuel n : Nat),
      train_steps losses none n fuel = (List.range' n fuel).map losses := by
  intro fuel
  induction fuel with
  | zero => intro n; rfl
  | succ f ih =>
    intro n
    rw [train_steps, if_neg (by simp), ih (n + 1), List.range'_succ]
    rfl

theorem train_steps_some (losses : Nat → Rat) (k : Nat) :
    ∀ (fuel n : Nat), n ≤ k →
      train_steps losses (some k) n fuel
        = (List.range' n (min fuel (k - n))).map losses := by
  intro fuel
  induction fuel with
  | zero => intro n _; simp [train_steps]
  | succ f ih =>
    intro n hn
    by_cases hk : k = n
    · subst hk
      rw [train_steps, if_pos rfl]
      simp
    · have hlt : n < k := by omega
      rw [train_steps, if_neg (by simpa using hk),
        ih (n + 1) (by omega)]
      have hmin : min (f + 1) (k - n) = min f (k - (n + 1)) + 1 := by omega
      rw [hmin, List.range'_succ]
      rfl

/-- Counterexample to C4 as stated: a run requested for 0 iterations with no
interrupt at all returns a loss history of length 0, so a length of 0 does
not imply that an interrupt arrived before the first iteration completed. -/
theorem C4_counterexample :
    (train_network (fun _ => (0 : Rat)) none 0).length = 0
    ∧ ∀ j : Nat, (none : Option Nat) ≠ some j :=
  ⟨rfl, fun _ h => Option.noConfusion h⟩

/-- C4 (amended): the loss history returned by the loop is exactly the
losses of the completed iterations in order — length
`min(requested_iterations, iterations completed before the interrupt)` with
an interrupt at an iteration boundary, the full requested length with no
interrupt, never padded — so an interrupt halts further iterations without
discarding recorded progress; the length is 0 exactly when the interrupt
arrives before the first iteration completes or the requested iteration
count is 0. -/
theorem C4_loss_history (losses : Nat → Rat) (N k : Nat) :
    train_network losses (some k) N = (List.range (min N k)).map losses
    ∧ train_network losses none N = (List.range N).map losses
    ∧ (train_network losses (some k) N).length = min N k
    ∧ (train_network losses none N).length = N
    ∧ ((train_network losses (some k) N).length = 0 ↔ k = 0 ∨ N = 0) := by
  have hsome : train_network losses (some k) N
      = (List.range (min N k)).map losses := by
    rw [train_network, train_steps_some losses k N 0 (by omega),
      Nat.sub_zero, List.range_eq_range']
  have hnone : train_network losses none N
      = (List.range N).map losses := by
    rw [train_network, train_steps_none, List.range_eq_range']
  refine ⟨hsome, hnone, ?_, ?_, ?_⟩
  · rw [hsome]; simp
  · rw [hnone]; simp
  · rw [hsome]
    simp only [List.length_map, List.length_range]
    omega

/-- One call of the compiled `objective_fx` — a Theano function with
`outputs = scalar_loss` and `updates`: per the external collaborator's
function-with-updates semantics, the returned output is the loss evaluated
from the shared variable values in effect at call entry, and the updates
are applied afterwards. The loss functional (standardize, affine layer,
tanh, softmax, squared error against the batch targets, batch mean) is
abstract, as the forward graph belongs to the external engine; it may
depend on the iteration index through the pulled batch. -/
def objective_fx_call (loss : Params → Rat) (eta : Rat)
    (grad : ParamName → List Rat) (p : Params) : Rat × Params :=
  (loss p, objective_fx_params eta grad p)

/-- The loop of `train_network`, threading the network's shared parameters:
iteration `i` pulls a batch (folded into the iteration index of `loss` and
`gradSeq`), calls `objective_fx` once, records the returned scalar loss,
and continues with the updated parameters. -/
def train_iters (loss : Nat → Params → Rat) (eta : Rat)
    (gradSeq : Nat → Params → ParamName → List Rat) :
    Nat → Nat → Params → List Rat
  | _, 0, _ => []
  | i, fuel + 1, p =>
    (objective_fx_call (loss i) eta (gradSeq i p) p).1
      :: train_iters loss eta gradSeq (i + 1) fuel
          (objective_fx_call (loss i) eta (gradSeq i p) p).2

theorem train_iters_getD (loss : Nat → Params → Rat) (eta : Rat)
    (gradSeq : Nat → Params → ParamName → List Rat) :
    ∀ (n fuel i : Nat) (p : Params), n < fuel →
      (train_iters loss eta gradSeq i fuel p).getD n 0
        = loss (i + n) (params_from eta gradSeq i n p) := by
  intro n
  induction n with
  | zero =>
    intro fuel i p hf
    cases fuel with
    | zero => omega
    | succ f => rfl
  | succ n ih =>
    intro fuel i p hf
    cases fuel with
    | zero => omega
    | succ f =>
      rw [train_iters]
      rw [List.getD_cons_succ]
      rw [ih f (i + 1) _ (by omega)]
      have harith : i + 1 + n = i + (n + 1) := by omega
      rw [harith]
      rfl

/-- C10: for every iteration `n` below the requested count, the scalar loss
recorded in the loss history at index `n` is the loss functional applied to
the parameter values in effect at the start of iteration `n` — that is,
before that same call's gradient update is applied to the trainable
parameters. -/
theorem C10_loss_is_pre_update (loss : Nat → Params → Rat) (eta : Rat)
    (gradSeq : Nat → Params → ParamName → List Rat) (p0 : Params)
    (N n : Nat) (hn : n < N) :
    (train_iters loss eta gradSeq 0 N p0).getD n 0
      = loss n (params_from eta gradSeq 0 n p0) := by
  have h := train_iters_getD loss eta gradSeq n N 0 p0 hn
  simpa using h

/-- Witness for C10 at a concrete one-weight network run for two
iterations. -/
theorem C10_loss_is_pre_update_witness :
    (1 : Nat) < 2
    ∧ (train_iters (fun _ p => (p ParamName.weights0).sum) 1
        (fun _ _ _ => [1]) 0 2 (fun _ => [0])).getD 1 0
      = (fun _ p => (p ParamName.weights0).sum) 1
          (params_from 1 (fun _ _ _ => [1]) 0 1 (fun _ => [0])) :=
  ⟨by decide,
    C10_loss_is_pre_update (fun _ p => (p ParamName.weights0).sum) 1
      (fun _ _ _ => [1]) (fun _ => [0]) 2 1 (by decide)⟩

end ChromaLearning
